import Mathlib

/-!
Shallow embedding of the roster-builder core logic of `fall-list-builder`.

The repository holds two variants of the same single-file application:

* `src/unnamed/part_000` — "Variant A": fourth unit type `Champion`, capped by
  `⌊pointsLimit / 250⌋`; `requiredCore = special`.
* `src/app.js` — "Variant B": fourth unit type `Elite`, uncapped;
  `requiredCore = special + 2 * elite`.

Definitions identical in both files (state, `deleteEntry`, `clearRoster`,
`getRosterTotal`, `findUnitInSelectedFaction`) are embedded once; the
variant-specific functions carry an `A`/`B` suffix because the two files reuse
the same JavaScript names.

JavaScript numbers are embedded as `Nat`: catalog points and limits are
positive integers, and every counter starts at 0 and only increments.
`Math.max(0, a - b)` on such numbers coincides with truncated `Nat`
subtraction `a - b`.
-/

/-- A roster entry `{ id, name, points, type }` (element of `rosterEntries`). -/
structure Entry where
  id : Nat
  name : String
  points : Nat
  type : String
deriving DecidableEq, Repr

/-- A catalog unit definition `{ name, points, type }`; `type` is `none` when
the field is absent (JS `undefined`). -/
structure CatUnit where
  name : String
  points : Nat
  type : Option String
deriving DecidableEq, Repr

/-- The mutable module state: `rosterEntries` and `nextId`. -/
structure RState where
  rosterEntries : List Entry
  nextId : Nat
deriving DecidableEq, Repr

/-- Initial module state: `rosterEntries = []`, `nextId = 1`. -/
def initState : RState := ⟨[], 1⟩

/-- `findUnitInSelectedFaction`: `(faction.units || []).find(u => u.name === unitName)`. -/
def findUnitInSelectedFaction (units : List CatUnit) (unitName : String) :
    Option CatUnit :=
  units.find? (fun u => u.name == unitName)

/-- `deleteEntry(id)`: `rosterEntries = rosterEntries.filter(e => e.id !== id)`. -/
def deleteEntry (id : Nat) (s : RState) : RState :=
  { s with rosterEntries := s.rosterEntries.filter (fun e => e.id != id) }

/-- `clearRoster()`: `rosterEntries = []; nextId = 1`. -/
def clearRoster (_s : RState) : RState := ⟨[], 1⟩

/-- `getRosterTotal()`: `let sum = 0; for (const it of rosterEntries) sum += it.points`. -/
def getRosterTotal (s : RState) : Nat :=
  s.rosterEntries.foldl (fun sum it => sum + it.points) 0

/-- JS `unit.type || "Core"` at entry-creation time: a falsy `type`
(absent field or empty string) is replaced by `"Core"`. -/
def coerceType : Option String → String
  | none => "Core"
  | some t => if t = "" then "Core" else t

/-! ### Variant A (`src/unnamed/part_000`): Leader / Core / Special / Champion -/

/-- Result of `computeForceComp` (variant A). -/
structure ForceCompA where
  leaders : Nat
  core : Nat
  special : Nat
  champions : Nat
  requiredCore : Nat
deriving DecidableEq, Repr

/-- Accumulator of the `computeForceComp` loop (variant A). -/
structure CountsA where
  leaders : Nat
  core : Nat
  special : Nat
  champions : Nat
deriving DecidableEq, Repr

/-- Loop body of `computeForceComp` (variant A): increment the tally matching
`it.type`; any other type falls through (ignored). -/
def countStepA (c : CountsA) (it : Entry) : CountsA :=
  if it.type = "Leader" then { c with leaders := c.leaders + 1 }
  else if it.type = "Core" then { c with core := c.core + 1 }
  else if it.type = "Special" then { c with special := c.special + 1 }
  else if it.type = "Champion" then { c with champions := c.champions + 1 }
  else c

/-- `computeForceComp` (variant A): per-type tallies over the roster;
`requiredCore = special` (champions do not contribute). -/
def computeForceCompA (entries : List Entry) : ForceCompA :=
  let c := entries.foldl countStepA ⟨0, 0, 0, 0⟩
  ⟨c.leaders, c.core, c.special, c.champions, c.special⟩

/-- `getChampionCap(limit)`: `Math.floor(Number(limit) / 250)`. -/
def getChampionCap (limit : Nat) : Nat := limit / 250

/-- `addUnit` (variant A).  Looks the unit up in the selected faction; on a
champion at cap it is a no-op that emits a `setStatus(message, "warn")`
signal; otherwise it pushes a fresh entry (type coerced by `|| "Core"`) and
bumps `nextId`.  The returned pair is (new state, optional status signal). -/
def addUnitA (units : List CatUnit) (limit : Nat) (unitName : String)
    (s : RState) : RState × Option (String × String) :=
  match findUnitInSelectedFaction units unitName with
  | none => (s, none)
  | some unit =>
    if unit.type = some "Champion" ∧
        (computeForceCompA s.rosterEntries).champions ≥ getChampionCap limit then
      (s, some ("Champion cap reached (" ++ toString (getChampionCap limit) ++
        " max at " ++ toString limit ++ " pts).", "warn"))
    else
      ({ rosterEntries := s.rosterEntries ++
          [⟨s.nextId, unit.name, unit.points, coerceType unit.type⟩],
         nextId := s.nextId + 1 }, none)

/-- The `compProblems` list built in `renderRoster` (variant A): leaders
check, core check, champion-cap check, in push order. -/
def compProblemsA (limit : Nat) (comp : ForceCompA) : List String :=
  (if comp.leaders ≠ 1 then
    ["Leaders: need exactly 1 (you have " ++ toString comp.leaders ++ ")."]
  else []) ++
  (if comp.core < comp.requiredCore then
    ["Core: need at least " ++ toString comp.requiredCore ++
      " (you have " ++ toString comp.core ++ ")."]
  else []) ++
  (if comp.champions > getChampionCap limit then
    ["Champions: max " ++ toString (getChampionCap limit) ++ " at " ++
      toString limit ++ " pts (you have " ++ toString comp.champions ++ ")."]
  else [])

/-- The status if-chain at the end of `renderRoster` (variant A), as a
function of `total`, `pointsLimit` and `compProblems`; yields
`(message, severity)` as passed to `setStatus`.  `over` and `remaining`
embed `Math.max(0, ·)` as truncated `Nat` subtraction. -/
def classifyStatusA (total limit : Nat) (compProblems : List String) :
    String × String :=
  let over := total - limit
  let remaining := limit - total
  if total = 0 then ("Ready.", "ok")
  else if ¬total ≤ limit ∧ ¬compProblems = [] then
    ("Over by " ++ toString over ++ " pts. " ++
      String.intercalate " " compProblems, "danger")
  else if ¬total ≤ limit then
    ("Over by " ++ toString over ++ " pts.", "danger")
  else if ¬compProblems = [] then
    (toString remaining ++ " pts remaining. " ++
      String.intercalate " " compProblems, "warn")
  else if total = limit then
    ("Legal: exact points and legal force composition.", "ok")
  else
    (toString remaining ++ " pts remaining. Legal so far.", "ok")

/-- Full status pipeline of `renderRoster` (variant A): total, composition,
problem list, classification. -/
def statusOfA (s : RState) (limit : Nat) : String × String :=
  classifyStatusA (getRosterTotal s) limit
    (compProblemsA limit (computeForceCompA s.rosterEntries))

/-- `TYPE_ORDER_MAP.get(t) ?? 999` with
`TYPE_ORDER = ["Leader", "Core", "Special", "Champion"]` (variant A). -/
def typeRankA (t : String) : Nat :=
  if t = "Leader" then 0
  else if t = "Core" then 1
  else if t = "Special" then 2
  else if t = "Champion" then 3
  else 999

/-- The sort comparator of `renderRoster` / `copyRosterToClipboard`
(variant A) as a boolean "less-or-equal": type rank first, then id. -/
def entryLeA (a b : Entry) : Bool :=
  decide (typeRankA a.type < typeRankA b.type ∨
    (typeRankA a.type = typeRankA b.type ∧ a.id ≤ b.id))

/-- `[...rosterEntries].sort(comparator)` (variant A). -/
def orderedEntriesA (entries : List Entry) : List Entry :=
  entries.mergeSort entryLeA

/-- One numbered export line:
`${idx + 1}. [${it.type}] ${it.name} — ${it.points}` (same in both variants). -/
def exportEntryLine (idx : Nat) (it : Entry) : String :=
  toString (idx + 1) ++ ". [" ++ it.type ++ "] " ++ it.name ++ " — " ++
    toString it.points

/-- The numbered entry lines of `copyRosterToClipboard` (variant A). -/
def exportEntryLinesA (entries : List Entry) : List String :=
  (orderedEntriesA entries).mapIdx exportEntryLine

/-- The full export text of `copyRosterToClipboard` (variant A). -/
def copyRosterTextA (selectedFactionName : String) (limit : Nat) (s : RState) :
    String :=
  let faction := if selectedFactionName = "" then "Unknown faction"
    else selectedFactionName
  let total := getRosterTotal s
  let comp := computeForceCompA s.rosterEntries
  let maxChampions := getChampionCap limit
  let header : List String :=
    ["Fall: A Game of Endings — Roster",
     "Faction: " ++ faction,
     "Limit: " ++ toString limit,
     "Total: " ++ toString total,
     "",
     "Force Comp: Leaders " ++ toString comp.leaders ++ "/1 · Core " ++
       toString comp.core ++ " (need ≥ " ++ toString comp.requiredCore ++
       ") · Special " ++ toString comp.special ++ " · Champions " ++
       toString comp.champions ++ "/" ++ toString maxChampions,
     ""]
  let body : List String :=
    if orderedEntriesA s.rosterEntries = [] then ["(No units)"]
    else exportEntryLinesA s.rosterEntries
  String.intercalate "\n" (header ++ body)

/-! ### Variant B (`src/app.js`): Leader / Core / Special / Elite -/

/-- Result of `computeForceComp` (variant B). -/
structure ForceCompB where
  leaders : Nat
  core : Nat
  special : Nat
  elite : Nat
  requiredCore : Nat
deriving DecidableEq, Repr

/-- Accumulator of the `computeForceComp` loop (variant B). -/
structure CountsB where
  leaders : Nat
  core : Nat
  special : Nat
  elite : Nat
deriving DecidableEq, Repr

/-- Loop body of `computeForceComp` (variant B): increment the tally matching
`it.type`; unknown types are ignored ("for now", per the code comment). -/
def countStepB (c : CountsB) (it : Entry) : CountsB :=
  if it.type = "Leader" then { c with leaders := c.leaders + 1 }
  else if it.type = "Core" then { c with core := c.core + 1 }
  else if it.type = "Special" then { c with special := c.special + 1 }
  else if it.type = "Elite" then { c with elite := c.elite + 1 }
  else c

/-- `computeForceComp` (variant B): per-type tallies over the roster;
`requiredCore = special + 2 * elite`. -/
def computeForceCompB (entries : List Entry) : ForceCompB :=
  let c := entries.foldl countStepB ⟨0, 0, 0, 0⟩
  ⟨c.leaders, c.core, c.special, c.elite, c.special + 2 * c.elite⟩

/-- `addUnit` (variant B): look the unit up and push a fresh entry (type
coerced by `|| "Core"`); no cap check exists in this variant. -/
def addUnitB (units : List CatUnit) (unitName : String) (s : RState) : RState :=
  match findUnitInSelectedFaction units unitName with
  | none => s
  | some unit =>
    { rosterEntries := s.rosterEntries ++
        [⟨s.nextId, unit.name, unit.points, coerceType unit.type⟩],
      nextId := s.nextId + 1 }

/-- The `compProblems` list built in `renderRoster` (variant B): leaders
check then core check. -/
def compProblemsB (comp : ForceCompB) : List String :=
  (if comp.leaders ≠ 1 then
    ["Leaders: need exactly 1 (you have " ++ toString comp.leaders ++ ")."]
  else []) ++
  (if comp.core < comp.requiredCore then
    ["Core: need at least " ++ toString comp.requiredCore ++
      " (you have " ++ toString comp.core ++ ")."]
  else [])

/-- The status if-chain at the end of `renderRoster` (variant B).  Identical
to variant A except for the final message, which reads
"Force composition legal so far." -/
def classifyStatusB (total limit : Nat) (compProblems : List String) :
    String × String :=
  let over := total - limit
  let remaining := limit - total
  if total = 0 then ("Ready.", "ok")
  else if ¬total ≤ limit ∧ ¬compProblems = [] then
    ("Over by " ++ toString over ++ " pts. " ++
      String.intercalate " " compProblems, "danger")
  else if ¬total ≤ limit then
    ("Over by " ++ toString over ++ " pts.", "danger")
  else if ¬compProblems = [] then
    (toString remaining ++ " pts remaining. " ++
      String.intercalate " " compProblems, "warn")
  else if total = limit then
    ("Legal: exact points and legal force composition.", "ok")
  else
    (toString remaining ++ " pts remaining. Force composition legal so far.", "ok")

/-- Full status pipeline of `renderRoster` (variant B). -/
def statusOfB (s : RState) (limit : Nat) : String × String :=
  classifyStatusB (getRosterTotal s) limit
    (compProblemsB (computeForceCompB s.rosterEntries))

/-- `TYPE_ORDER_MAP.get(t) ?? 999` with
`TYPE_ORDER = ["Leader", "Core", "Special", "Elite"]` (variant B). -/
def typeRankB (t : String) : Nat :=
  if t = "Leader" then 0
  else if t = "Core" then 1
  else if t = "Special" then 2
  else if t = "Elite" then 3
  else 999

/-- The sort comparator (variant B) as a boolean "less-or-equal". -/
def entryLeB (a b : Entry) : Bool :=
  decide (typeRankB a.type < typeRankB b.type ∨
    (typeRankB a.type = typeRankB b.type ∧ a.id ≤ b.id))

/-- `[...rosterEntries].sort(comparator)` (variant B). -/
def orderedEntriesB (entries : List Entry) : List Entry :=
  entries.mergeSort entryLeB

/-- The numbered entry lines of `copyRosterToClipboard` (variant B). -/
def exportEntryLinesB (entries : List Entry) : List String :=
  (orderedEntriesB entries).mapIdx exportEntryLine

/-- The full export text of `copyRosterToClipboard` (variant B). -/
def copyRosterTextB (selectedFactionName : String) (limit : Nat) (s : RState) :
    String :=
  let faction := if selectedFactionName = "" then "Unknown faction"
    else selectedFactionName
  let total := getRosterTotal s
  let comp := computeForceCompB s.rosterEntries
  let header : List String :=
    ["Fall: A Game of Endings — Roster",
     "Faction: " ++ faction,
     "Limit: " ++ toString limit,
     "Total: " ++ toString total,
     "",
     "Force Comp: Leaders " ++ toString comp.leaders ++ "/1 · Core " ++
       toString comp.core ++ "/" ++ toString comp.requiredCore ++
       " (Special " ++ toString comp.special ++ ", Elite " ++
       toString comp.elite ++ ")",
     ""]
  let body : List String :=
    if orderedEntriesB s.rosterEntries = [] then ["(No units)"]
    else exportEntryLinesB s.rosterEntries
  String.intercalate "\n" (header ++ body)

/-! ### Operation sequences (for the totals invariant) -/

/-- One UI mutation, as dispatched by the event handlers of either variant. -/
inductive Op where
  | addA (units : List CatUnit) (limit : Nat) (unitName : String)
  | addB (units : List CatUnit) (unitName : String)
  | del (id : Nat)
  | clear
deriving Repr

/-- Apply one mutation to the state. -/
def applyOp (s : RState) : Op → RState
  | .addA units limit unitName => (addUnitA units limit unitName s).1
  | .addB units unitName => addUnitB units unitName s
  | .del id => deleteEntry id s
  | .clear => clearRoster s

/-- Apply a sequence of mutations, left to right. -/
def applyOps (s : RState) (ops : List Op) : RState := ops.foldl applyOp s

/-! ### Spec decision table (section 4.2), for the refinement claim -/

/-- Modelled from the spec: the section 4.2 status decision table, keyed on
`total == 0`, `total <= limit`, `problems empty`, `total == limit`, with the
messages the code actually emits in variant A ("Legal: exact points and legal
force composition." at exact points; "Legal so far." below the limit). -/
def specStatusTableA (total limit : Nat) (problems : List String) :
    String × String :=
  if total = 0 then ("Ready.", "ok")
  else if total ≤ limit then
    if problems = [] then
      if total = limit then
        ("Legal: exact points and legal force composition.", "ok")
      else (toString (limit - total) ++ " pts remaining. Legal so far.", "ok")
    else (toString (limit - total) ++ " pts remaining. " ++
      String.intercalate " " problems, "warn")
  else
    if problems = [] then
      ("Over by " ++ toString (total - limit) ++ " pts.", "danger")
    else ("Over by " ++ toString (total - limit) ++ " pts. " ++
      String.intercalate " " problems, "danger")

/-- Modelled from the spec: the section 4.2 decision table with the variant-B
below-limit legal message "Force composition legal so far." -/
def specStatusTableB (total limit : Nat) (problems : List String) :
    String × String :=
  if total = 0 then ("Ready.", "ok")
  else if total ≤ limit then
    if problems = [] then
      if total = limit then
        ("Legal: exact points and legal force composition.", "ok")
      else (toString (limit - total) ++
        " pts remaining. Force composition legal so far.", "ok")
    else (toString (limit - total) ++ " pts remaining. " ++
      String.intercalate " " problems, "warn")
  else
    if problems = [] then
      ("Over by " ++ toString (total - limit) ++ " pts.", "danger")
    else ("Over by " ++ toString (total - limit) ++ " pts. " ++
      String.intercalate " " problems, "danger")

/-! ### Counting lemmas -/

theorem foldl_countStepA (l : List Entry) (c : CountsA) :
    l.foldl countStepA c =
      ⟨c.leaders + l.countP (fun e => e.type == "Leader"),
       c.core + l.countP (fun e => e.type == "Core"),
       c.special + l.countP (fun e => e.type == "Special"),
       c.champions + l.countP (fun e => e.type == "Champion")⟩ := by
  induction l generalizing c with
  | nil => simp
  | cons a l ih =>
    rw [List.foldl_cons, ih]
    simp only [countStepA, List.countP_cons]
    split_ifs with h1 h2 h3 h4 <;> simp_all <;> omega

theorem foldl_countStepB (l : List Entry) (c : CountsB) :
    l.foldl countStepB c =
      ⟨c.leaders + l.countP (fun e => e.type == "Leader"),
       c.core + l.countP (fun e => e.type == "Core"),
       c.special + l.countP (fun e => e.type == "Special"),
       c.elite + l.countP (fun e => e.type == "Elite")⟩ := by
  induction l generalizing c with
  | nil => simp
  | cons a l ih =>
    rw [List.foldl_cons, ih]
    simp only [countStepB, List.countP_cons]
    split_ifs with h1 h2 h3 h4 <;> simp_all <;> omega

theorem computeForceCompA_eq (l : List Entry) :
    computeForceCompA l =
      ⟨l.countP (fun e => e.type == "Leader"),
       l.countP (fun e => e.type == "Core"),
       l.countP (fun e => e.type == "Special"),
       l.countP (fun e => e.type == "Champion"),
       l.countP (fun e => e.type == "Special")⟩ := by
  simp [computeForceCompA, foldl_countStepA]

theorem computeForceCompB_eq (l : List Entry) :
    computeForceCompB l =
      ⟨l.countP (fun e => e.type == "Leader"),
       l.countP (fun e => e.type == "Core"),
       l.countP (fun e => e.type == "Special"),
       l.countP (fun e => e.type == "Elite"),
       l.countP (fun e => e.type == "Special")
         + 2 * l.countP (fun e => e.type == "Elite")⟩ := by
  simp [computeForceCompB, foldl_countStepB]

/-- The known unit types of variant A, as a predicate on entries. -/
def knownTypeA (e : Entry) : Bool :=
  e.type == "Leader" || e.type == "Core" || e.type == "Special" ||
    e.type == "Champion"

/-- The known unit types of variant B, as a predicate on entries. -/
def knownTypeB (e : Entry) : Bool :=
  e.type == "Leader" || e.type == "Core" || e.type == "Special" ||
    e.type == "Elite"

theorem countP_knownTypeA (l : List Entry) :
    l.countP (fun e => e.type == "Leader") + l.countP (fun e => e.type == "Core")
      + l.countP (fun e => e.type == "Special")
      + l.countP (fun e => e.type == "Champion")
      = l.countP knownTypeA := by
  induction l with
  | nil => simp
  | cons a l ih =>
    simp only [List.countP_cons, knownTypeA]
    by_cases h1 : a.type = "Leader" <;> by_cases h2 : a.type = "Core" <;>
      by_cases h3 : a.type = "Special" <;> by_cases h4 : a.type = "Champion" <;>
      simp_all <;> omega

theorem countP_knownTypeB (l : List Entry) :
    l.countP (fun e => e.type == "Leader") + l.countP (fun e => e.type == "Core")
      + l.countP (fun e => e.type == "Special")
      + l.countP (fun e => e.type == "Elite")
      = l.countP knownTypeB := by
  induction l with
  | nil => simp
  | cons a l ih =>
    simp only [List.countP_cons, knownTypeB]
    by_cases h1 : a.type = "Leader" <;> by_cases h2 : a.type = "Core" <;>
      by_cases h3 : a.type = "Special" <;> by_cases h4 : a.type = "Elite" <;>
      simp_all <;> omega

/-- C1: `computeForceComp` returns `requiredCore` according to the active
rule variant — in variant A it is the number of Special entries (Champions do
not contribute), in variant B it is the number of Special entries plus twice
the number of Elite entries. -/
theorem requiredCore_matches_variant (entries : List Entry) :
    (computeForceCompA entries).requiredCore
        = entries.countP (fun e => e.type == "Special") ∧
    (computeForceCompB entries).requiredCore
        = entries.countP (fun e => e.type == "Special")
          + 2 * entries.countP (fun e => e.type == "Elite") := by
  rw [computeForceCompA_eq, computeForceCompB_eq]
  exact ⟨rfl, rfl⟩

/-- C4 (counterexample): a roster with a single entry of unknown type "Weird"
has all four per-type counts 0, so their sum is 0 while the roster has 1
entry — the counts do not sum to the roster size. -/
theorem comp_counts_sum_cex :
    (computeForceCompA [⟨1, "Mystery", 5, "Weird"⟩]).leaders
        + (computeForceCompA [⟨1, "Mystery", 5, "Weird"⟩]).core
        + (computeForceCompA [⟨1, "Mystery", 5, "Weird"⟩]).special
        + (computeForceCompA [⟨1, "Mystery", 5, "Weird"⟩]).champions = 0 ∧
    (computeForceCompB [⟨1, "Mystery", 5, "Weird"⟩]).leaders
        + (computeForceCompB [⟨1, "Mystery", 5, "Weird"⟩]).core
        + (computeForceCompB [⟨1, "Mystery", 5, "Weird"⟩]).special
        + (computeForceCompB [⟨1, "Mystery", 5, "Weird"⟩]).elite = 0 ∧
    ([(⟨1, "Mystery", 5, "Weird"⟩ : Entry)] : List Entry).length = 1 := by
  refine ⟨rfl, rfl, rfl⟩

/-- C4 (amended): for every roster, the per-type counts returned by
`computeForceComp` are all non-negative and their sum equals the number of
entries whose type is one of the known types of the active variant (which is
at most the roster size; entries of unknown type are excluded). -/
theorem comp_counts_sum (entries : List Entry) :
    (computeForceCompA entries).leaders + (computeForceCompA entries).core
        + (computeForceCompA entries).special
        + (computeForceCompA entries).champions
      = entries.countP knownTypeA ∧
    entries.countP knownTypeA ≤ entries.length ∧
    (computeForceCompB entries).leaders + (computeForceCompB entries).core
        + (computeForceCompB entries).special + (computeForceCompB entries).elite
      = entries.countP knownTypeB ∧
    entries.countP knownTypeB ≤ entries.length := by
  refine ⟨?_, List.countP_le_length _, ?_, List.countP_le_length _⟩
  · rw [computeForceCompA_eq]
    exact countP_knownTypeA entries
  · rw [computeForceCompB_eq]
    exact countP_knownTypeB entries

/-! ### Totals -/

theorem foldl_add_points (l : List Entry) (n : Nat) :
    l.foldl (fun sum it => sum + it.points) n = n + (l.map Entry.points).sum := by
  induction l generalizing n with
  | nil => simp
  | cons a l ih => simp [List.foldl_cons, ih]; omega

/-- C6: after any sequence of `addUnit`, `deleteEntry` and `clearRoster`
operations starting from the initial state, `getRosterTotal` returns the sum
of the `points` fields of the entries currently present in the roster. -/
theorem getRosterTotal_eq_sum (ops : List Op) :
    getRosterTotal (applyOps initState ops)
      = ((applyOps initState ops).rosterEntries.map Entry.points).sum := by
  simpa [getRosterTotal] using
    foldl_add_points (applyOps initState ops).rosterEntries 0

/-- C7: `clearRoster` restores the initial observable state — the roster is
empty, `nextId` is back to 1, and total points, force composition and status
classification coincide with those of a freshly initialized roster. -/
theorem clearRoster_resets (s : RState) (limit : Nat) :
    clearRoster s = initState ∧
    getRosterTotal (clearRoster s) = getRosterTotal initState ∧
    computeForceCompA (clearRoster s).rosterEntries
      = computeForceCompA initState.rosterEntries ∧
    computeForceCompB (clearRoster s).rosterEntries
      = computeForceCompB initState.rosterEntries ∧
    statusOfA (clearRoster s) limit = statusOfA initState limit ∧
    statusOfB (clearRoster s) limit = statusOfB initState limit :=
  ⟨rfl, rfl, rfl, rfl, rfl, rfl⟩

/-- C8: `deleteEntry` is idempotent — deleting the same id twice equals
deleting it once — and deleting an id that no present entry carries leaves
the state unchanged. -/
theorem deleteEntry_idem (s : RState) (id : Nat) :
    deleteEntry id (deleteEntry id s) = deleteEntry id s ∧
    ((∀ e ∈ s.rosterEntries, e.id ≠ id) → deleteEntry id s = s) := by
  constructor
  · simp [deleteEntry, List.filter_filter]
  · intro h
    have hf : s.rosterEntries.filter (fun e => e.id != id) = s.rosterEntries :=
      List.filter_eq_self.mpr (fun e he => by simpa using h e he)
    cases s
    simpa [deleteEntry] using hf

/-- C8 (witness): on the concrete one-entry state `⟨[⟨1, "A", 5, "Core"⟩], 2⟩`,
deleting id 3 twice equals deleting it once, and — id 3 being absent —
deleting it once changes nothing. -/
theorem deleteEntry_idem_witness :
    deleteEntry 3 (deleteEntry 3 (⟨[⟨1, "A", 5, "Core"⟩], 2⟩ : RState))
        = deleteEntry 3 (⟨[⟨1, "A", 5, "Core"⟩], 2⟩ : RState) ∧
    deleteEntry 3 (⟨[⟨1, "A", 5, "Core"⟩], 2⟩ : RState)
        = (⟨[⟨1, "A", 5, "Core"⟩], 2⟩ : RState) :=
  ⟨(deleteEntry_idem ⟨[⟨1, "A", 5, "Core"⟩], 2⟩ 3).1,
   (deleteEntry_idem ⟨[⟨1, "A", 5, "Core"⟩], 2⟩ 3).2 (by decide)⟩

/-! ### Status classification -/

theorem num_prefix_ne_ready (n : Nat) (rest : String) (h : 7 ≤ rest.length) :
    toString n ++ rest ≠ "Ready." := by
  intro hEq
  have hlen := congrArg String.length hEq
  rw [String.length_append] at hlen
  have h6 : ("Ready." : String).length = 6 := rfl
  omega

/-- C3: the status classification yields severity "ok" with message "Ready."
exactly when the roster's total points are 0, whatever the limit and whatever
the composition — in both variants. -/
theorem status_ready_iff (s : RState) (limit : Nat) :
    (statusOfA s limit = ("Ready.", "ok") ↔ getRosterTotal s = 0) ∧
    (statusOfB s limit = ("Ready.", "ok") ↔ getRosterTotal s = 0) := by
  constructor
  · by_cases h0 : getRosterTotal s = 0
    · simp [statusOfA, classifyStatusA, h0]
    · simp only [statusOfA, classifyStatusA, h0, iff_false, if_false]
      split_ifs <;> intro hEq <;>
        first
          | (have h := congrArg Prod.snd hEq; simp at h; done)
          | (have h := congrArg Prod.fst hEq; simp at h; done)
          | (have h := congrArg Prod.fst hEq
             exact num_prefix_ne_ready _ _ (by decide) h)
  · by_cases h0 : getRosterTotal s = 0
    · simp [statusOfB, classifyStatusB, h0]
    · simp only [statusOfB, classifyStatusB, h0, iff_false, if_false]
      split_ifs <;> intro hEq <;>
        first
          | (have h := congrArg Prod.snd hEq; simp at h; done)
          | (have h := congrArg Prod.fst hEq; simp at h; done)
          | (have h := congrArg Prod.fst hEq
             exact num_prefix_ne_ready _ _ (by decide) h)

/-- C2 (counterexample): with total = limit = 300 and a legal composition,
the variant-A pipeline emits "Legal: exact points and legal force
composition." — not the claimed "Legal: exact points and legal composition."
(variant B emits the same message on this branch). -/
theorem status_exact_message_cex :
    getRosterTotal ⟨[⟨1, "Warlord", 100, "Leader"⟩, ⟨2, "Grunts", 100, "Core"⟩,
        ⟨3, "Stalkers", 100, "Special"⟩], 4⟩ = 300 ∧
    compProblemsA 300 (computeForceCompA [⟨1, "Warlord", 100, "Leader"⟩,
        ⟨2, "Grunts", 100, "Core"⟩, ⟨3, "Stalkers", 100, "Special"⟩]) = [] ∧
    statusOfA ⟨[⟨1, "Warlord", 100, "Leader"⟩, ⟨2, "Grunts", 100, "Core"⟩,
        ⟨3, "Stalkers", 100, "Special"⟩], 4⟩ 300
      = ("Legal: exact points and legal force composition.", "ok") ∧
    statusOfA ⟨[⟨1, "Warlord", 100, "Leader"⟩, ⟨2, "Grunts", 100, "Core"⟩,
        ⟨3, "Stalkers", 100, "Special"⟩], 4⟩ 300
      ≠ ("Legal: exact points and legal composition.", "ok") := by
  refine ⟨rfl, rfl, rfl, ?_⟩
  decide

/-- C2 (amended): for every total, limit and composition-problems list, the
status classification realizes the section-4.2 decision table with the
messages the code emits: at exact points "Legal: exact points and legal force
composition."; strictly below the limit with no problems,
"<remaining> pts remaining. Legal so far." in variant A and
"<remaining> pts remaining. Force composition legal so far." in variant B,
with remaining = limit - total. -/
theorem classify_matches_spec_table (total limit : Nat)
    (problems : List String) :
    classifyStatusA total limit problems = specStatusTableA total limit problems ∧
    classifyStatusB total limit problems = specStatusTableB total limit problems := by
  constructor
  · simp only [classifyStatusA, specStatusTableA]
    split_ifs <;> first | rfl | tauto
  · simp only [classifyStatusB, specStatusTableB]
    split_ifs <;> first | rfl | tauto

/-! ### Champion cap on add (variant A) -/

/-- C5: in variant A, whenever the roster already holds at least
⌊limit / 250⌋ Champions (a cap of 0 included), `addUnit` on a catalog unit of
type Champion creates no entry — the state, roster list and `nextId` are
returned unchanged — and a warning-severity `setStatus` signal is emitted
instead of an exception. -/
theorem addUnitA_champion_cap (units : List CatUnit) (limit : Nat)
    (unitName : String) (s : RState) (u : CatUnit)
    (hfind : findUnitInSelectedFaction units unitName = some u)
    (htype : u.type = some "Champion")
    (hcap : (computeForceCompA s.rosterEntries).champions ≥ getChampionCap limit) :
    addUnitA units limit unitName s =
      (s, some ("Champion cap reached (" ++ toString (getChampionCap limit) ++
        " max at " ++ toString limit ++ " pts).", "warn")) := by
  simp only [addUnitA, hfind]
  rw [if_pos ⟨htype, hcap⟩]

/-- C5 (witness): at limit 200 the champion cap is ⌊200/250⌋ = 0, so adding
the champion "Ancient One" to the fresh roster is a no-op with a warning. -/
theorem addUnitA_champion_cap_witness :
    addUnitA [⟨"Ancient One", 90, some "Champion"⟩] 200 "Ancient One" initState
      = (initState, some ("Champion cap reached (0 max at 200 pts).", "warn")) := by
  have h := addUnitA_champion_cap [⟨"Ancient One", 90, some "Champion"⟩] 200
    "Ancient One" initState ⟨"Ancient One", 90, some "Champion"⟩
    (by decide) (by decide) (by decide)
  exact h.trans (by decide)

/-! ### Export ordering -/

theorem entryLeA_trans (a b c : Entry) (h1 : entryLeA a b = true)
    (h2 : entryLeA b c = true) : entryLeA a c = true := by
  simp only [entryLeA, decide_eq_true_eq] at *
  omega

theorem entryLeA_total (a b : Entry) : (entryLeA a b || entryLeA b a) = true := by
  simp only [entryLeA, Bool.or_eq_true, decide_eq_true_eq]
  omega

theorem entryLeB_trans (a b c : Entry) (h1 : entryLeB a b = true)
    (h2 : entryLeB b c = true) : entryLeB a c = true := by
  simp only [entryLeB, decide_eq_true_eq] at *
  omega

theorem entryLeB_total (a b : Entry) : (entryLeB a b || entryLeB b a) = true := by
  simp only [entryLeB, Bool.or_eq_true, decide_eq_true_eq]
  omega

/-- C9: the export's numbered entry lines enumerate `orderedEntries`, which is
a permutation of the roster — each present entry appears exactly once — and is
sorted by type rank (Leader, Core, Special, then the fourth type; unknown
types rank 999 and sort last) and, within equal rank, by ascending id; in
both variants. -/
theorem export_order (entries : List Entry) :
    (orderedEntriesA entries).Perm entries ∧
    (orderedEntriesA entries).Pairwise (fun a b =>
      typeRankA a.type < typeRankA b.type ∨
        (typeRankA a.type = typeRankA b.type ∧ a.id ≤ b.id)) ∧
    exportEntryLinesA entries
      = (orderedEntriesA entries).mapIdx exportEntryLine ∧
    (orderedEntriesB entries).Perm entries ∧
    (orderedEntriesB entries).Pairwise (fun a b =>
      typeRankB a.type < typeRankB b.type ∨
        (typeRankB a.type = typeRankB b.type ∧ a.id ≤ b.id)) ∧
    exportEntryLinesB entries
      = (orderedEntriesB entries).mapIdx exportEntryLine := by
  refine ⟨List.mergeSort_perm entries entryLeA, ?_, rfl,
          List.mergeSort_perm entries entryLeB, ?_, rfl⟩
  · have h := @List.sorted_mergeSort Entry entryLeA entryLeA_trans
      entryLeA_total entries
    exact h.imp (fun hab => by simpa [entryLeA] using hab)
  · have h := @List.sorted_mergeSort Entry entryLeB entryLeB_trans
      entryLeB_total entries
    exact h.imp (fun hab => by simpa [entryLeB] using hab)

/-! ### Falsy type coercion on add -/

/-- C10: when `addUnit` finds a catalog unit whose `type` field is falsy
(absent or the empty string), the created entry's type is `"Core"`, and a
roster extended with that entry has its Core tally one higher in every
subsequent composition computation — in both variants. -/
theorem addUnit_falsy_type_core (units : List CatUnit) (limit : Nat)
    (unitName : String) (s : RState) (u : CatUnit)
    (hfind : findUnitInSelectedFaction units unitName = some u)
    (hfalsy : u.type = none ∨ u.type = some "") :
    (addUnitA units limit unitName s).1.rosterEntries
        = s.rosterEntries ++ [⟨s.nextId, u.name, u.points, "Core"⟩] ∧
    (addUnitB units unitName s).rosterEntries
        = s.rosterEntries ++ [⟨s.nextId, u.name, u.points, "Core"⟩] ∧
    (∀ l : List Entry,
      (computeForceCompA (l ++ [⟨s.nextId, u.name, u.points, "Core"⟩])).core
          = (computeForceCompA l).core + 1 ∧
      (computeForceCompB (l ++ [⟨s.nextId, u.name, u.points, "Core"⟩])).core
          = (computeForceCompB l).core + 1) := by
  have hcoerce : coerceType u.type = "Core" := by
    rcases hfalsy with h | h <;> simp [h, coerceType]
  have hnotchamp : ¬(u.type = some "Champion" ∧
      (computeForceCompA s.rosterEntries).champions ≥ getChampionCap limit) := by
    rcases hfalsy with h | h <;> simp [h]
  refine ⟨?_, ?_, ?_⟩
  · simp only [addUnitA, hfind]
    rw [if_neg hnotchamp, hcoerce]
  · simp only [addUnitB, hfind]
    rw [hcoerce]
  · intro l
    constructor <;>
      simp [computeForceCompA_eq, computeForceCompB_eq, List.countP_append,
        List.countP_cons]

/-- C10 (witness): adding the typeless catalog unit "Nameless" to the fresh
roster creates a `"Core"` entry and bumps the Core tally from 0 to 1. -/
theorem addUnit_falsy_type_core_witness :
    (addUnitA [⟨"Nameless", 10, none⟩] 300 "Nameless" initState).1.rosterEntries
        = initState.rosterEntries
          ++ [⟨initState.nextId, "Nameless", 10, "Core"⟩] ∧
    (addUnitB [⟨"Nameless", 10, none⟩] "Nameless" initState).rosterEntries
        = initState.rosterEntries
          ++ [⟨initState.nextId, "Nameless", 10, "Core"⟩] ∧
    (computeForceCompA ([] ++ [⟨initState.nextId, "Nameless", 10, "Core"⟩])).core
        = (computeForceCompA []).core + 1 ∧
    (computeForceCompB ([] ++ [⟨initState.nextId, "Nameless", 10, "Core"⟩])).core
        = (computeForceCompB []).core + 1 := by
  have h := addUnit_falsy_type_core [⟨"Nameless", 10, none⟩] 300 "Nameless"
    initState ⟨"Nameless", 10, none⟩ (by decide) (Or.inl rfl)
  exact ⟨h.1, h.2.1, (h.2.2 []).1, (h.2.2 []).2⟩
